import Mathlib

/-!
Verification of the infinite weekly calendar grid of the go-run workout tracker.

Shallow embedding conventions:
* A calendar date (day precision, which is all the grid uses) is an integer
  epoch-day number: days since 1970-01-01 (day 0, a Thursday).  JS `Date`
  values that the source normalizes to local midnight are represented by the
  day number of that local calendar day; time-of-day, timezone offsets and
  DST are below the resolution of this model.
* JS `%` and `/` appear in the source only with operands where truncating and
  euclidean division agree, or wrapped in `Math.round`; each embedding site
  documents the correspondence.  `Math.round (n / 7)` for integer `n` is
  `floor ((2*n + 7) / 14)`.
* The numeric fields of a workout (including the REAL `load` column) are
  modelled at exact integer precision: every claim under study is about which
  values are combined, not about floating-point rounding.
-/

namespace GoRun

/-- Day of week of an epoch day, matching JS `Date.prototype.getDay`:
0 = Sunday .. 6 = Saturday (day 0 = 1970-01-01 is a Thursday, `getDay = 4`). -/
def dayOfWeek (d : Int) : Int :=
  (d + 4) % 7

/-- Proleptic Gregorian conversion from an epoch day to `(year, month, day)`
with month 1..12 and day 1..31; models the calendar fields JS `Date` exposes
through `getFullYear` / `getMonth` (0-based, callers add or subtract 1) /
`getDate`. -/
def civilFromDays (z0 : Int) : Int × Int × Int :=
  let z := z0 + 719468
  let era := z / 146097
  let doe := z % 146097
  let yoe := (doe - doe / 1460 + doe / 36524 - doe / 146096) / 365
  let y := yoe + era * 400
  let doy := doe - (365 * yoe + yoe / 4 - yoe / 100)
  let mp := (5 * doy + 2) / 153
  let d := doy - (153 * mp + 2) / 5 + 1
  let m := mp + (if mp < 10 then 3 else -9)
  (if m ≤ 2 then y + 1 else y, m, d)

/-- Inverse civil conversion for month 1..12: epoch day of year-month-day. -/
def daysFromCivil (y m d : Int) : Int :=
  let yAdj := if m ≤ 2 then y - 1 else y
  let era := yAdj / 400
  let yoe := yAdj - era * 400
  let mp := (m + 9) % 12
  let doy := (153 * mp + 2) / 5 + d - 1
  let doe := yoe * 365 + yoe / 4 - yoe / 100 + doy
  era * 146097 + doe - 719468

/-- JS `new Date(year, monthIndex, day)` at day precision: `monthIndex` is
0-based and out-of-range month and day values roll over arithmetically.
(The legacy two-digit-year remapping of the `Date` constructor is outside the
supported range and not modelled.) -/
def mkDateLocal (year monthIndex day : Int) : Int :=
  daysFromCivil (year + monthIndex / 12) (monthIndex % 12 + 1) 1 + (day - 1)

/-- `src/utils/calendar.ts` `WEEK_START_DAY`: 0 = Sunday. -/
def WEEK_START_DAY : Int := 0

/-- `src/utils/calendar.ts` `getWeekStart`: start of the week containing `d`
(midnight normalization is implicit at day precision).  JS
`(day - WEEK_START_DAY + 7) % 7` has a non-negative dividend, where JS `%`
agrees with euclidean `emod`. -/
def getWeekStart (d : Int) : Int :=
  let day := dayOfWeek d
  let diff := (day - WEEK_START_DAY + 7) % 7
  d - diff

/-- `src/utils/calendar.ts` `REFERENCE_WEEK_START = getWeekStart(new Date(2020, 0, 1))`. -/
def REFERENCE_WEEK_START : Int := getWeekStart (daysFromCivil 2020 1 1)

/-- `src/utils/calendar.ts` `weekIndexToStartDate`: `setDate(getDate() + weekIndex * 7)`
is calendar-day addition. -/
def weekIndexToStartDate (weekIndex : Int) : Int :=
  REFERENCE_WEEK_START + 7 * weekIndex

/-- `src/utils/calendar.ts` `dateToWeekIndex`:
`Math.round(diffMs / (7 * MS_PER_DAY))` over day-precision dates is
`Math.round(diffDays / 7)`, i.e. `floor((2 * diffDays + 7) / 14)`. -/
def dateToWeekIndex (date : Int) : Int :=
  let diffDays := getWeekStart date - REFERENCE_WEEK_START
  (2 * diffDays + 7) / 14

/-- `src/utils/calendar.ts` `getWeekDates`: week start plus 0..6 days
(`i * MS_PER_DAY` milliseconds added to a midnight date is `i` calendar days
at day precision). -/
def getWeekDates (weekStart : Int) : List Int :=
  (List.range 7).map (fun i => weekStart + (i : Int))

/-- `src/utils/calendar.ts` `DayInfo` (month is 0-based as JS `getMonth`). -/
structure DayInfo where
  date : Int
  dayOfMonth : Int
  month : Int
  year : Int
  isToday : Bool
  isWeekend : Bool
  deriving Repr, DecidableEq

/-- `src/utils/calendar.ts` `getWeekInfo`; the source reads `new Date()` for
the today comparison, modelled by the explicit `now` parameter. -/
def getWeekInfo (weekStart : Int) (now : Int) : List DayInfo :=
  (getWeekDates weekStart).map (fun date =>
    let c := civilFromDays date
    let cn := civilFromDays now
    let isToday := c.2.2 == cn.2.2 && c.2.1 == cn.2.1 && c.1 == cn.1
    let day := dayOfWeek date
    let isWeekend := day == 0 || day == 6
    { date := date
      dayOfMonth := c.2.2
      month := c.2.1 - 1
      year := c.1
      isToday := isToday
      isWeekend := isWeekend })

/-- Workout status enum (`status: enum{pending, completed, error}`). -/
inductive WorkoutStatus where
  | pending
  | completed
  | error
  deriving Repr, DecidableEq

/-- Exercise type enum (`exerciseType: enum{run, walk, cycle, swim}`). -/
inductive ExerciseType where
  | run
  | walk
  | cycle
  | swim
  deriving Repr, DecidableEq

/-- Workout record (§3 data model, `src/db/workouts.ts` row mapping): `date`
at day precision, `createdAt` kept as the stored ISO text of the
`created_at` column, numeric fields at exact integer precision. -/
structure Workout where
  id : Int
  title : String
  description : Option String
  date : Int
  status : WorkoutStatus
  exerciseType : ExerciseType
  durationSec : Int
  distanceMeters : Int
  load : Int
  createdAt : String
  deriving Repr, DecidableEq

/-- JS `String(n).padStart(2, "0")` for month / day key components. -/
def pad2 (n : Int) : String :=
  let s := toString n
  if s.length < 2 then "0" ++ s else s

/-- `src/unnamed/part_004` `formatDateKey`: the local `YYYY-MM-DD` key of a
date (`getMonth()` is 0-based, the source adds 1; `civilFromDays` already
yields the 1-based month). -/
def formatDateKey (date : Int) : String :=
  let c := civilFromDays date
  toString c.1 ++ "-" ++ pad2 c.2.1 ++ "-" ++ pad2 c.2.2

/-- `src/unnamed/part_004` `cellKey`: composite `weekIndex-dayIndex` key. -/
def cellKey (weekIndex dayIndex : Int) : String :=
  toString weekIndex ++ "-" ++ toString dayIndex

/-- `src/unnamed/part_004` `parseDateKey`: split the key on `-`, convert the
first three parts with `Number()` (modelled by `String.toInt?`; the grid only
applies this to keys produced by `formatDateKey`, where the two agree), and
build the — possibly rolled-over — local date; `none` models the `null`
returned for non-numeric parts. -/
def parseDateKey (dateKey : String) : Option Int :=
  let dash := "-"
  match dateKey.splitOn dash with
  | yearRaw :: monthRaw :: dayRaw :: _ =>
    match yearRaw.toInt?, monthRaw.toInt?, dayRaw.toInt? with
    | some year, some month, some day => some (mkDateLocal year (month - 1) day)
    | _, _, _ => none
  | _ => none

/-- JS `String.prototype.trim`: drop whitespace from both ends (structural
recursion over the character list, so that concrete instances evaluate). -/
def jsTrim (s : String) : String :=
  { data := (((s.data.dropWhile Char.isWhitespace).reverse.dropWhile
      Char.isWhitespace).reverse) }

/-- `src/unnamed/part_004` `CellCardData.state` values. -/
inductive CellState where
  | input
  | pending
  | completed
  | error
  deriving Repr, DecidableEq

/-- The source assigns a workout status string directly to a cell state field
(`state: existingWorkout.status`). -/
def statusToCellState : WorkoutStatus → CellState
  | WorkoutStatus.pending => CellState.pending
  | WorkoutStatus.completed => CellState.completed
  | WorkoutStatus.error => CellState.error

/-- `src/unnamed/part_004` `CellCardData`. -/
structure CellCardData where
  state : CellState
  value : String
  dateKey : String
  deriving Repr, DecidableEq

/-- The per-cell edit map `cellCards`: a JS record updated copy-on-write,
modelled extensionally as a partial map from cell keys. -/
abbrev CellMap : Type := String → Option CellCardData

/-- `{ ...prev, [key]: v }` -/
def cmSet (m : CellMap) (key : String) (v : CellCardData) : CellMap :=
  fun k => if k = key then some v else m k

/-- `const { [key]: _, ...rest } = prev; return rest` -/
def cmErase (m : CellMap) (key : String) : CellMap :=
  fun k => if k = key then none else m k

/-- The empty cell map (initial `{}` state). -/
def cmEmpty : CellMap := fun _ => none

/-- The grid's `workoutsByDate`: a JS `Map` in insertion order, modelled as an
association list. -/
abbrev WorkoutMap : Type := List (String × Workout)

/-- `map.get(key)` -/
def wmLookup (m : WorkoutMap) (key : String) : Option Workout :=
  (m.find? (fun e => e.1 == key)).map (fun e => e.2)

/-- `map.has(key)` -/
def wmHas (m : WorkoutMap) (key : String) : Bool :=
  (wmLookup m key).isSome

/-- One step of the `workouts.forEach` body building `workoutsByDate`
(`src/unnamed/part_004` lines 683-693): first-seen keys win.  The source's
guard against missing / NaN dates is vacuous in the day-precision model,
where every date value is a valid day number. -/
def wdStep (m : WorkoutMap) (w : Workout) : WorkoutMap :=
  let key := formatDateKey w.date
  if wmHas m key then m else m ++ [(key, w)]

/-- `src/unnamed/part_004` `workoutsByDate`: fold the store's workout list
into a first-seen-wins map keyed by formatted date. -/
def buildWorkoutsByDate (workouts : List Workout) : WorkoutMap :=
  workouts.foldl wdStep []

/-- `UpdateWorkoutInput` of `src/db/workouts.ts`: the optional fields fall
back to the existing row via `??`; an omitted `description` defaults to null
in the destructuring, so the stored value is always exactly the input's. -/
structure UpdateWorkoutInput where
  id : Int
  title : String
  description : Option String
  date : Option Int
  status : WorkoutStatus
  exerciseType : Option ExerciseType
  durationSec : Option Int
  distanceMeters : Option Int
  load : Option Int
  deriving Repr, DecidableEq

/-- `CreateWorkoutInput` as passed by `handleCardSubmit`, which supplies every
field explicitly. -/
structure CreateWorkoutInput where
  title : String
  description : Option String
  date : Int
  status : WorkoutStatus
  exerciseType : ExerciseType
  durationSec : Int
  distanceMeters : Int
  load : Int
  deriving Repr, DecidableEq

/-- `src/db/workouts.ts` `updateWorkoutInDB` acting on a store of rows: look
the row up by id (`SELECT ... WHERE id = ?`, id the primary key), throw
without touching the store when absent, else write the merged row back
(`UPDATE ... WHERE id = ?`) and return the updated workout.  The row's
`created_at` is not in the `UPDATE` column list and is preserved; the date
column round-trips through `YYYY-MM-DD` text, the identity at day
precision. -/
def updateWorkoutInDB (store : List Workout) (input : UpdateWorkoutInput) :
    List Workout × Except String Workout :=
  match store.find? (fun w => w.id == input.id) with
  | none => (store, Except.error ("Workout not found for update: " ++ toString input.id))
  | some existing =>
    let exercise_type := input.exerciseType.getD existing.exerciseType
    let duration_sec := input.durationSec.getD existing.durationSec
    let distance_meters := input.distanceMeters.getD existing.distanceMeters
    let loadVal := input.load.getD existing.load
    let dateVal := input.date.getD existing.date
    let updated : Workout :=
      { id := existing.id
        title := input.title
        description := input.description
        date := dateVal
        status := input.status
        exerciseType := exercise_type
        durationSec := duration_sec
        distanceMeters := distance_meters
        load := loadVal
        createdAt := existing.createdAt }
    (store.map (fun w => if w.id == input.id then updated else w), Except.ok updated)

/-- `DragPayload` held by `dragDataRef`. -/
structure DragPayload where
  workout : Workout
  sourceDateKey : String
  deriving Repr, DecidableEq

/-- `src/unnamed/part_004` `handleWorkoutDrop` (lines 727-763): the result is
the input passed to `updateWorkout.mutate` (if any) together with the value
of `dragDataRef` after the drop.  `targetDate` is
`setDate(start.getDate() + dayIndex)`, i.e. calendar-day addition. -/
def handleWorkoutDrop (dragData : Option DragPayload) (workoutsByDate : WorkoutMap)
    (cellCards : CellMap) (weekIndex dayIndex : Int) :
    Option UpdateWorkoutInput × Option DragPayload :=
  match dragData with
  | none => (none, none)
  | some dd =>
    let targetDate := weekIndexToStartDate weekIndex + dayIndex
    let targetDateKey := formatDateKey targetDate
    if targetDateKey == dd.sourceDateKey then (none, some dd)
    else if wmHas workoutsByDate targetDateKey then (none, some dd)
    else
      let targetCellKey := cellKey weekIndex dayIndex
      if (cellCards targetCellKey).isSome then (none, some dd)
      else
        let w := dd.workout
        (some { id := w.id
                title := w.title
                description := w.description
                date := some targetDate
                status := w.status
                exerciseType := some w.exerciseType
                durationSec := some w.durationSec
                distanceMeters := some w.distanceMeters
                load := some w.load }, none)

/-- A store call fired by a grid handler. -/
inductive StoreCall where
  | update : UpdateWorkoutInput → StoreCall
  | create : CreateWorkoutInput → StoreCall
  deriving Repr, DecidableEq

/-- `src/unnamed/part_004` `handleCardSubmit` (lines 951-1036): the immediate
effect of one submit — the new cell map and the store call it fires.  (The
asynchronous `onSuccess` / `onError` continuations of the mutation are later,
separate state transitions and not part of this step.) -/
def handleCardSubmit (cellCards : CellMap) (workoutsByDate : WorkoutMap)
    (weekIndex dayIndex : Int) : CellMap × Option StoreCall :=
  let key := cellKey weekIndex dayIndex
  match cellCards key with
  | none => (cellCards, none)
  | some current =>
    if current.state ≠ CellState.input then (cellCards, none)
    else
      let trimmedValue := jsTrim current.value
      if trimmedValue = "" then (cmErase cellCards key, none)
      else
        match wmLookup workoutsByDate current.dateKey with
        | some existingWorkout =>
          (cmSet cellCards key { current with state := statusToCellState existingWorkout.status },
           some (StoreCall.update
             { id := existingWorkout.id
               title := trimmedValue
               description := existingWorkout.description
               date := some existingWorkout.date
               status := existingWorkout.status
               exerciseType := some existingWorkout.exerciseType
               durationSec := some existingWorkout.durationSec
               distanceMeters := some existingWorkout.distanceMeters
               load := some existingWorkout.load }))
        | none =>
          let pendingCards := cmSet cellCards key { current with state := CellState.pending }
          match parseDateKey current.dateKey with
          | none => (pendingCards, none)
          | some createDate =>
            (pendingCards,
             some (StoreCall.create
               { title := trimmedValue
                 description := none
                 date := createDate
                 status := WorkoutStatus.pending
                 exerciseType := ExerciseType.run
                 durationSec := 0
                 distanceMeters := 0
                 load := 0 }))

/-- `src/unnamed/part_004` `STATUS_ORDER`. -/
def STATUS_ORDER : List WorkoutStatus :=
  [WorkoutStatus.pending, WorkoutStatus.completed, WorkoutStatus.error]

/-- `src/unnamed/part_004` `handleCardCycleIcon` (lines 1038-1069): the new
cell map together with the update input fired when the press is bound to a
workout.  `STATUS_ORDER[(currentIndex + 1) % STATUS_ORDER.length]` is always
in bounds, so the `getD` default is never reached. -/
def handleCardCycleIcon (cellCards : CellMap) (weekIndex dayIndex : Int)
    (workout : Option Workout) : CellMap × Option UpdateWorkoutInput :=
  let key := cellKey weekIndex dayIndex
  let newCards :=
    match cellCards key with
    | none => cellCards
    | some current =>
      if current.state = CellState.input then cellCards
      else
        let nextState :=
          if current.state = CellState.pending then CellState.completed
          else if current.state = CellState.completed then CellState.error
          else CellState.pending
        cmSet cellCards key { current with state := nextState }
  match workout with
  | none => (newCards, none)
  | some w =>
    let currentIndex := STATUS_ORDER.indexOf w.status
    let nextState :=
      (STATUS_ORDER.get? ((currentIndex + 1) % STATUS_ORDER.length)).getD WorkoutStatus.pending
    (newCards,
     some { id := w.id
            title := w.title
            description := w.description
            date := some w.date
            status := nextState
            exerciseType := some w.exerciseType
            durationSec := some w.durationSec
            distanceMeters := some w.distanceMeters
            load := some w.load })

/-- Weekly totals computed by `SummaryCell` (`src/unnamed/part_004`
lines 431-457). -/
structure WeekTotals where
  completedSec : Int
  completedMeters : Int
  completedLoad : Int
  totalSec : Int
  totalMeters : Int
  totalLoad : Int
  deriving Repr, DecidableEq

/-- Body of the `weekWorkouts.forEach` accumulation in `SummaryCell`. -/
def summaryStep (acc : WeekTotals) (w : Workout) : WeekTotals :=
  let acc1 :=
    { acc with
      totalSec := acc.totalSec + w.durationSec
      totalMeters := acc.totalMeters + w.distanceMeters
      totalLoad := acc.totalLoad + w.load }
  if w.status = WorkoutStatus.completed then
    { acc1 with
      completedSec := acc1.completedSec + w.durationSec
      completedMeters := acc1.completedMeters + w.distanceMeters
      completedLoad := acc1.completedLoad + w.load }
  else acc1

/-- `SummaryCell`'s aggregation over a week's workouts, starting from
all-zero accumulators. -/
def summarizeWeek (weekWorkouts : List Workout) : WeekTotals :=
  weekWorkouts.foldl summaryStep ⟨0, 0, 0, 0, 0, 0⟩

/-- The status successor stated by the spec: pending → completed → error →
pending.  The theorems relate the code's `STATUS_ORDER` arithmetic to it. -/
def cycleNext : WorkoutStatus → WorkoutStatus
  | WorkoutStatus.pending => WorkoutStatus.completed
  | WorkoutStatus.completed => WorkoutStatus.error
  | WorkoutStatus.error => WorkoutStatus.pending

/-- Concrete workout for the scenario witnesses: the seed `Intervals` workout
at 2026-01-12 (epoch day 20465), status pending. -/
def wIntervals : Workout :=
  { id := 2
    title := "Intervals"
    description := none
    date := 20465
    status := WorkoutStatus.pending
    exerciseType := ExerciseType.run
    durationSec := 2700
    distanceMeters := 2400
    load := 0
    createdAt := "2026-01-12T08:00:00.000Z" }

/-- Drag payload carrying `wIntervals` from its own date key. -/
def dragIntervals : DragPayload :=
  { workout := wIntervals
    sourceDateKey := "2026-01-12" }

/-- Scenario week for the aggregation claim: completed workouts of 1800 s and
2700 s and a pending workout of 900 s. -/
def scenarioWeek : List Workout :=
  [{ id := 11
     title := "Morning run"
     description := none
     date := 20468
     status := WorkoutStatus.completed
     exerciseType := ExerciseType.run
     durationSec := 1800
     distanceMeters := 5000
     load := 0
     createdAt := "2026-01-15T08:00:00.000Z" },
   { id := 12
     title := "Long run"
     description := none
     date := 20469
     status := WorkoutStatus.completed
     exerciseType := ExerciseType.run
     durationSec := 2700
     distanceMeters := 8000
     load := 0
     createdAt := "2026-01-16T08:00:00.000Z" },
   { id := 13
     title := "Recovery jog"
     description := none
     date := 20470
     status := WorkoutStatus.pending
     exerciseType := ExerciseType.run
     durationSec := 900
     distanceMeters := 2000
     load := 0
     createdAt := "2026-01-17T08:00:00.000Z" }]

/-- Update input whose id matches nothing in a one-workout store. -/
def updMissing : UpdateWorkoutInput :=
  { id := 99
    title := "Ghost"
    description := none
    date := none
    status := WorkoutStatus.pending
    exerciseType := none
    durationSec := none
    distanceMeters := none
    load := none }

/-- Update input retitling `wIntervals`. -/
def updIntervals : UpdateWorkoutInput :=
  { id := 2
    title := "Intervals v2"
    description := none
    date := none
    status := WorkoutStatus.pending
    exerciseType := none
    durationSec := none
    distanceMeters := none
    load := none }

/-- Input-state cell card with non-empty text on the `wIntervals` date. -/
def cardTempo : CellCardData :=
  { state := CellState.input
    value := "Tempo"
    dateKey := "2026-01-12" }

/-- Input-state cell card with whitespace-only text on an empty date. -/
def cardBlank : CellCardData :=
  { state := CellState.input
    value := " "
    dateKey := "2026-01-21" }

end GoRun

namespace GoRun

/-- The fixed reference week start is Sunday 2019-12-29 (epoch day 18259). -/
theorem reference_week_start_eq : REFERENCE_WEEK_START = 18259 := by decide

/-- C1: round-trip law of the week-index addressing scheme: for every integer
week index `i`, `dateToWeekIndex (weekIndexToStartDate i) = i`, and for every
date `d`, `weekIndexToStartDate (dateToWeekIndex d)` is the start-of-week date
(the Sunday, at midnight in the day-precision model) of the week containing
`d`, i.e. `getWeekStart d`. -/
theorem weekIndex_roundTrip :
    (∀ i : Int, dateToWeekIndex (weekIndexToStartDate i) = i) ∧
    (∀ d : Int, weekIndexToStartDate (dateToWeekIndex d) = getWeekStart d) := by
  have hREF : REFERENCE_WEEK_START = 18259 := reference_week_start_eq
  constructor
  · intro i
    simp only [dateToWeekIndex, weekIndexToStartDate, getWeekStart, dayOfWeek,
      WEEK_START_DAY, hREF]
    omega
  · intro d
    simp only [dateToWeekIndex, weekIndexToStartDate, getWeekStart, dayOfWeek,
      WEEK_START_DAY, hREF]
    omega

/-- C8: for every week index `i` (and any value of "now"), `getWeekInfo`
applied to `weekIndexToStartDate i` returns exactly 7 entries whose dates are
the 7 consecutive calendar days starting at `weekIndexToStartDate i`, in
order. -/
theorem getWeekInfo_seven_consecutive :
    ∀ (i now : Int),
      (getWeekInfo (weekIndexToStartDate i) now).length = 7 ∧
      (getWeekInfo (weekIndexToStartDate i) now).map DayInfo.date =
        [weekIndexToStartDate i, weekIndexToStartDate i + 1,
         weekIndexToStartDate i + 2, weekIndexToStartDate i + 3,
         weekIndexToStartDate i + 4, weekIndexToStartDate i + 5,
         weekIndexToStartDate i + 6] := by
  intro i now
  constructor
  · rfl
  · norm_num [getWeekInfo, getWeekDates, List.range_succ]

/-- C2: a drop with a dragged workout applies a reassignment only when the
target date differs from the source date, the target date has no workout in
`workoutsByDate`, and the target cell has no active edit state; whenever any
of the three validations fails, the drop issues no store call and leaves the
drag payload (hence the dragged workout's date) unchanged. -/
theorem handleWorkoutDrop_noop_when_invalid
    (dd : DragPayload) (workoutsByDate : WorkoutMap) (cellCards : CellMap)
    (weekIndex dayIndex : Int)
    (hfail :
      formatDateKey (weekIndexToStartDate weekIndex + dayIndex) = dd.sourceDateKey ∨
      wmHas workoutsByDate (formatDateKey (weekIndexToStartDate weekIndex + dayIndex)) = true ∨
      (cellCards (cellKey weekIndex dayIndex)).isSome = true) :
    handleWorkoutDrop (some dd) workoutsByDate cellCards weekIndex dayIndex =
      (none, some dd) := by
  unfold handleWorkoutDrop
  rcases hfail with h | h | h <;> simp [h]

/-- C2 witness: dropping `wIntervals` onto its own source date 2026-01-12
(week index 315, day 1) issues zero store calls. -/
theorem handleWorkoutDrop_noop_witness :
    handleWorkoutDrop (some dragIntervals) [] cmEmpty 315 1 =
      (none, some dragIntervals) :=
  handleWorkoutDrop_noop_when_invalid dragIntervals [] cmEmpty 315 1
    (Or.inl (by decide))

/-- C3: a drop that passes all three validations issues exactly one store
update carrying the dragged workout's full field set with only the date
replaced by the target date; running that update on a store containing the
dragged workout yields the workout with the new date and every other field,
`createdAt` included, unchanged. -/
theorem handleWorkoutDrop_valid_single_update
    (dd : DragPayload) (workoutsByDate : WorkoutMap) (cellCards : CellMap)
    (weekIndex dayIndex : Int) (store : List Workout)
    (h1 : formatDateKey (weekIndexToStartDate weekIndex + dayIndex) ≠ dd.sourceDateKey)
    (h2 : wmHas workoutsByDate (formatDateKey (weekIndexToStartDate weekIndex + dayIndex)) = false)
    (h3 : cellCards (cellKey weekIndex dayIndex) = none)
    (h4 : store.find? (fun w => w.id == dd.workout.id) = some dd.workout) :
    ∃ inp : UpdateWorkoutInput,
      handleWorkoutDrop (some dd) workoutsByDate cellCards weekIndex dayIndex =
        (some inp, none) ∧
      inp.id = dd.workout.id ∧ inp.title = dd.workout.title ∧
      inp.description = dd.workout.description ∧
      inp.date = some (weekIndexToStartDate weekIndex + dayIndex) ∧
      inp.status = dd.workout.status ∧
      inp.exerciseType = some dd.workout.exerciseType ∧
      inp.durationSec = some dd.workout.durationSec ∧
      inp.distanceMeters = some dd.workout.distanceMeters ∧
      inp.load = some dd.workout.load ∧
      (updateWorkoutInDB store inp).2 =
        Except.ok { dd.workout with date := weekIndexToStartDate weekIndex + dayIndex } := by
  have hbeq : (formatDateKey (weekIndexToStartDate weekIndex + dayIndex) ==
      dd.sourceDateKey) = false := by
    simpa using h1
  refine ⟨{ id := dd.workout.id
            title := dd.workout.title
            description := dd.workout.description
            date := some (weekIndexToStartDate weekIndex + dayIndex)
            status := dd.workout.status
            exerciseType := some dd.workout.exerciseType
            durationSec := some dd.workout.durationSec
            distanceMeters := some dd.workout.distanceMeters
            load := some dd.workout.load },
          ?_, rfl, rfl, rfl, rfl, rfl, rfl, rfl, rfl, rfl, ?_⟩
  · unfold handleWorkoutDrop
    simp [hbeq, h2, h3]
  · unfold updateWorkoutInDB
    rw [h4]
    rfl

/-- C3 witness: dragging `wIntervals` (2026-01-12, pending) onto the empty
2026-01-13 cell (week index 315, day 2; epoch day 20466) fires one update and
the stored record keeps every field but the date. -/
theorem handleWorkoutDrop_valid_witness :
    ∃ inp : UpdateWorkoutInput,
      handleWorkoutDrop (some dragIntervals) [] cmEmpty 315 2 = (some inp, none) ∧
      inp.id = dragIntervals.workout.id ∧ inp.title = dragIntervals.workout.title ∧
      inp.description = dragIntervals.workout.description ∧
      inp.date = some (weekIndexToStartDate 315 + 2) ∧
      inp.status = dragIntervals.workout.status ∧
      inp.exerciseType = some dragIntervals.workout.exerciseType ∧
      inp.durationSec = some dragIntervals.workout.durationSec ∧
      inp.distanceMeters = some dragIntervals.workout.distanceMeters ∧
      inp.load = some dragIntervals.workout.load ∧
      (updateWorkoutInDB [wIntervals] inp).2 =
        Except.ok { dragIntervals.workout with date := weekIndexToStartDate 315 + 2 } :=
  handleWorkoutDrop_valid_single_update dragIntervals [] cmEmpty 315 2 [wIntervals]
    (by decide) (by decide) rfl (by decide)

/-- C4: submitting non-empty text from an input-state cell whose date key has
an existing workout in `workoutsByDate` issues exactly one store update
targeting that workout's id with the trimmed text as the new title, and never
a create call. -/
theorem handleCardSubmit_existing_updates_never_creates
    (cellCards : CellMap) (workoutsByDate : WorkoutMap) (weekIndex dayIndex : Int)
    (current : CellCardData) (w : Workout)
    (hc : cellCards (cellKey weekIndex dayIndex) = some current)
    (hstate : current.state = CellState.input)
    (hne : jsTrim current.value ≠ "")
    (hw : wmLookup workoutsByDate current.dateKey = some w) :
    handleCardSubmit cellCards workoutsByDate weekIndex dayIndex =
      (cmSet cellCards (cellKey weekIndex dayIndex)
        { current with state := statusToCellState w.status },
       some (StoreCall.update
         { id := w.id
           title := jsTrim current.value
           description := w.description
           date := some w.date
           status := w.status
           exerciseType := some w.exerciseType
           durationSec := some w.durationSec
           distanceMeters := some w.distanceMeters
           load := some w.load })) ∧
    (∀ ci : CreateWorkoutInput,
      (handleCardSubmit cellCards workoutsByDate weekIndex dayIndex).2 ≠
        some (StoreCall.create ci)) := by
  have hres : handleCardSubmit cellCards workoutsByDate weekIndex dayIndex =
      (cmSet cellCards (cellKey weekIndex dayIndex)
        { current with state := statusToCellState w.status },
       some (StoreCall.update
         { id := w.id
           title := jsTrim current.value
           description := w.description
           date := some w.date
           status := w.status
           exerciseType := some w.exerciseType
           durationSec := some w.durationSec
           distanceMeters := some w.distanceMeters
           load := some w.load })) := by
    unfold handleCardSubmit
    simp [hc, hstate, hne, hw]
  refine ⟨hres, ?_⟩
  intro ci
  rw [hres]
  simp

/-- C4 witness: submitting "Tempo" into the 2026-01-12 cell (week 315, day 1)
while `wIntervals` already occupies that date updates workout id 2 and
creates nothing. -/
theorem handleCardSubmit_existing_witness :
    handleCardSubmit (cmSet cmEmpty (cellKey 315 1) cardTempo)
        [(formatDateKey 20465, wIntervals)] 315 1 =
      (cmSet (cmSet cmEmpty (cellKey 315 1) cardTempo) (cellKey 315 1)
        { cardTempo with state := statusToCellState wIntervals.status },
       some (StoreCall.update
         { id := wIntervals.id
           title := jsTrim cardTempo.value
           description := wIntervals.description
           date := some wIntervals.date
           status := wIntervals.status
           exerciseType := some wIntervals.exerciseType
           durationSec := some wIntervals.durationSec
           distanceMeters := some wIntervals.distanceMeters
           load := some wIntervals.load })) ∧
    (∀ ci : CreateWorkoutInput,
      (handleCardSubmit (cmSet cmEmpty (cellKey 315 1) cardTempo)
          [(formatDateKey 20465, wIntervals)] 315 1).2 ≠
        some (StoreCall.create ci)) :=
  handleCardSubmit_existing_updates_never_creates
    (cmSet cmEmpty (cellKey 315 1) cardTempo) [(formatDateKey 20465, wIntervals)]
    315 1 cardTempo wIntervals (by simp [cmSet]) rfl (by decide) (by decide)

/-- C5: submitting an input-state cell whose trimmed text is empty, with no
backing workout for its date, removes the cell's entry from the edit map
(every other entry untouched) and issues no store call at all; the handler is
total, so nothing is raised. -/
theorem handleCardSubmit_empty_discards_silently
    (cellCards : CellMap) (workoutsByDate : WorkoutMap) (weekIndex dayIndex : Int)
    (current : CellCardData)
    (hc : cellCards (cellKey weekIndex dayIndex) = some current)
    (hstate : current.state = CellState.input)
    (hempty : jsTrim current.value = "")
    (_hnow : wmLookup workoutsByDate current.dateKey = none) :
    handleCardSubmit cellCards workoutsByDate weekIndex dayIndex =
      (cmErase cellCards (cellKey weekIndex dayIndex), none) ∧
    (cmErase cellCards (cellKey weekIndex dayIndex)) (cellKey weekIndex dayIndex) = none ∧
    (∀ k, k ≠ cellKey weekIndex dayIndex →
      (cmErase cellCards (cellKey weekIndex dayIndex)) k = cellCards k) := by
  refine ⟨?_, ?_, ?_⟩
  · unfold handleCardSubmit
    simp [hc, hstate, hempty]
  · simp [cmErase]
  · intro k hk
    simp [cmErase, hk]

/-- C5 witness: submitting the whitespace-only card on the empty 2026-01-21
cell (week 316, day 3) erases the entry and fires nothing. -/
theorem handleCardSubmit_empty_witness :
    handleCardSubmit (cmSet cmEmpty (cellKey 316 3) cardBlank) [] 316 3 =
      (cmErase (cmSet cmEmpty (cellKey 316 3) cardBlank) (cellKey 316 3), none) ∧
    (cmErase (cmSet cmEmpty (cellKey 316 3) cardBlank) (cellKey 316 3)) (cellKey 316 3) = none ∧
    (∀ k, k ≠ cellKey 316 3 →
      (cmErase (cmSet cmEmpty (cellKey 316 3) cardBlank) (cellKey 316 3)) k =
        (cmSet cmEmpty (cellKey 316 3) cardBlank) k) :=
  handleCardSubmit_empty_discards_silently
    (cmSet cmEmpty (cellKey 316 3) cardBlank) [] 316 3 cardBlank
    (by simp [cmSet]) rfl (by decide) rfl

/-- C6: pressing the status icon of a workout-backed cell issues exactly one
update whose status is the successor of the workout's status in the
pending → completed → error → pending cycle (so three presses restore any
status), and the cycle has no other transitions. -/
theorem handleCardCycleIcon_cycles :
    (∀ (cellCards : CellMap) (weekIndex dayIndex : Int) (w : Workout),
      ∃ inp : UpdateWorkoutInput,
        (handleCardCycleIcon cellCards weekIndex dayIndex (some w)).2 = some inp ∧
        inp.id = w.id ∧ inp.status = cycleNext w.status) ∧
    cycleNext WorkoutStatus.pending = WorkoutStatus.completed ∧
    cycleNext WorkoutStatus.completed = WorkoutStatus.error ∧
    cycleNext WorkoutStatus.error = WorkoutStatus.pending ∧
    (∀ s : WorkoutStatus, cycleNext (cycleNext (cycleNext s)) = s) := by
  refine ⟨?_, rfl, rfl, rfl, ?_⟩
  · intro cellCards weekIndex dayIndex w
    refine ⟨_, rfl, rfl, ?_⟩
    cases hst : w.status <;> rfl
  · intro s
    cases s <;> rfl

/-- `summaryStep` folded from any accumulator adds the completed-filtered and
unfiltered sums of the three metrics. -/
theorem foldl_summaryStep (ws : List Workout) (acc : WeekTotals) :
    List.foldl summaryStep acc ws =
      { completedSec := acc.completedSec +
          ((ws.filter (fun w => w.status == WorkoutStatus.completed)).map
            Workout.durationSec).sum
        completedMeters := acc.completedMeters +
          ((ws.filter (fun w => w.status == WorkoutStatus.completed)).map
            Workout.distanceMeters).sum
        completedLoad := acc.completedLoad +
          ((ws.filter (fun w => w.status == WorkoutStatus.completed)).map
            Workout.load).sum
        totalSec := acc.totalSec + (ws.map Workout.durationSec).sum
        totalMeters := acc.totalMeters + (ws.map Workout.distanceMeters).sum
        totalLoad := acc.totalLoad + (ws.map Workout.load).sum } := by
  induction ws generalizing acc with
  | nil => simp
  | cons w ws ih =>
    rw [List.foldl_cons, ih]
    by_cases hw : w.status = WorkoutStatus.completed <;>
      simp [summaryStep, hw, WeekTotals.mk.injEq, List.filter_cons] <;>
      omega

/-- C7: the weekly aggregation's completed totals are the sums of
`durationSec`, `distanceMeters` and `load` over the week's completed
workouts, and its grand totals the sums over all the week's workouts; in
particular the scenario week (completed 1800 s and 2700 s, pending 900 s)
yields completed total 4500 s and grand total 5400 s. -/
theorem summarizeWeek_completed_vs_total :
    (∀ ws : List Workout,
      (summarizeWeek ws).completedSec =
        ((ws.filter (fun w => w.status == WorkoutStatus.completed)).map
          Workout.durationSec).sum ∧
      (summarizeWeek ws).completedMeters =
        ((ws.filter (fun w => w.status == WorkoutStatus.completed)).map
          Workout.distanceMeters).sum ∧
      (summarizeWeek ws).completedLoad =
        ((ws.filter (fun w => w.status == WorkoutStatus.completed)).map
          Workout.load).sum ∧
      (summarizeWeek ws).totalSec = (ws.map Workout.durationSec).sum ∧
      (summarizeWeek ws).totalMeters = (ws.map Workout.distanceMeters).sum ∧
      (summarizeWeek ws).totalLoad = (ws.map Workout.load).sum) ∧
    (summarizeWeek scenarioWeek).completedSec = 4500 ∧
    (summarizeWeek scenarioWeek).totalSec = 5400 := by
  refine ⟨?_, by rfl, by rfl⟩
  intro ws
  rw [summarizeWeek, foldl_summaryStep]
  simp

/-- `Option.map` distributes over `Option.or`. -/
theorem option_map_or {α β : Type} (a b : Option α) (f : α → β) :
    (a.or b).map f = (a.map f).or (b.map f) := by
  cases a <;> rfl

/-- `wmHas` holds exactly for the keys of the association list. -/
theorem wmHas_eq_true_iff (m : WorkoutMap) (k : String) :
    wmHas m k = true ↔ k ∈ m.map Prod.fst := by
  have hiso : wmHas m k = (m.find? (fun e => e.1 == k)).isSome := by
    unfold wmHas wmLookup
    cases m.find? (fun e => e.1 == k) <;> rfl
  rw [hiso, List.find?_isSome]
  constructor
  · rintro ⟨e, hem, hek⟩
    exact List.mem_map.mpr ⟨e, hem, eq_of_beq hek⟩
  · intro h
    obtain ⟨e, hem, hek⟩ := List.mem_map.mp h
    exact ⟨e, hem, by simp [hek]⟩

/-- `wdStep` folded from any key-nodup accumulator keeps keys nodup. -/
theorem foldl_wdStep_nodup (ws : List Workout) (m : WorkoutMap)
    (hm : (m.map Prod.fst).Nodup) :
    ((List.foldl wdStep m ws).map Prod.fst).Nodup := by
  induction ws generalizing m with
  | nil => exact hm
  | cons w ws ih =>
    rw [List.foldl_cons]
    apply ih
    unfold wdStep
    by_cases hk : wmHas m (formatDateKey w.date) = true
    · rwa [if_pos hk]
    · rw [if_neg hk, List.map_append, List.nodup_append]
      refine ⟨hm, by simp, ?_⟩
      intro a ham hamem
      simp only [List.map_cons, List.map_nil, List.mem_singleton] at hamem
      subst hamem
      exact hk ((wmHas_eq_true_iff m _).mpr ham)

/-- `wdStep` folded from any accumulator: lookup is the accumulator's entry
or else the first list element bearing the key. -/
theorem foldl_wdStep_lookup (ws : List Workout) (m : WorkoutMap) (k : String) :
    wmLookup (List.foldl wdStep m ws) k =
      (wmLookup m k).or (ws.find? (fun w => formatDateKey w.date == k)) := by
  induction ws generalizing m with
  | nil => simp
  | cons w ws ih =>
    rw [List.foldl_cons, ih]
    unfold wdStep
    by_cases hk : wmHas m (formatDateKey w.date) = true
    · rw [if_pos hk]
      by_cases hwk : (formatDateKey w.date == k) = true
      · have hkk : formatDateKey w.date = k := by simpa using hwk
        have hksome : (wmLookup m k).isSome = true := by
          unfold wmHas at hk
          rwa [hkk] at hk
        obtain ⟨v, hv⟩ := Option.isSome_iff_exists.mp hksome
        rw [hv]
        rfl
      · rw [List.find?_cons_of_neg ws hwk]
    · rw [if_neg hk]
      have hmn : wmLookup m k ≠ none →
          (formatDateKey w.date == k) = false ∨ wmLookup m k = none := by
        intro hnn
        by_cases hwk : (formatDateKey w.date == k) = true
        · have hkk : formatDateKey w.date = k := by simpa using hwk
          rw [hkk] at hk
          right
          exact Option.not_isSome_iff_eq_none.mp hk
        · exact Or.inl (by simpa using hwk)
      unfold wmLookup
      rw [List.find?_append, option_map_or]
      by_cases hwk : (formatDateKey w.date == k) = true
      · have hkk : formatDateKey w.date = k := by simpa using hwk
        have hfn : m.find? (fun e => e.1 == k) = none := by
          rw [hkk] at hk
          unfold wmHas wmLookup at hk
          have := Option.not_isSome_iff_eq_none.mp hk
          exact Option.map_eq_none'.mp this
        rw [hfn, List.find?_cons_of_pos ws hwk]
        simp [List.find?, hkk]
      · have hfw : List.find? (fun e => e.1 == k) [(formatDateKey w.date, w)] = none := by
          simp [List.find?, hwk]
        rw [hfw, List.find?_cons_of_neg ws hwk]
        simp [Option.or_none]

/-- C9: the grid's workout-by-date map built from any workout list has
pairwise-distinct date keys (at most one workout per calendar date), and its
lookup at any key returns exactly the first workout in the list whose
formatted date is that key — any later workout with the same date is
invisible. -/
theorem workoutsByDate_first_seen_wins :
    ∀ (workouts : List Workout) (k : String),
      ((buildWorkoutsByDate workouts).map Prod.fst).Nodup ∧
      wmLookup (buildWorkoutsByDate workouts) k =
        workouts.find? (fun w => formatDateKey w.date == k) := by
  intro ws k
  constructor
  · exact foldl_wdStep_nodup ws [] (by simp)
  · rw [buildWorkoutsByDate, foldl_wdStep_lookup]
    rfl

/-- C10: an update whose id matches no stored record fails with the NotFound
error and leaves the store untouched; an update whose id is present succeeds
and returns the merged workout (its `createdAt` taken from the existing
row). -/
theorem updateWorkoutInDB_notFound_or_updates
    (store : List Workout) (input : UpdateWorkoutInput) :
    ((∀ w ∈ store, w.id ≠ input.id) →
      updateWorkoutInDB store input =
        (store, Except.error ("Workout not found for update: " ++ toString input.id))) ∧
    (∀ w : Workout, store.find? (fun x => x.id == input.id) = some w →
      (updateWorkoutInDB store input).2 =
        Except.ok
          { id := w.id
            title := input.title
            description := input.description
            date := input.date.getD w.date
            status := input.status
            exerciseType := input.exerciseType.getD w.exerciseType
            durationSec := input.durationSec.getD w.durationSec
            distanceMeters := input.distanceMeters.getD w.distanceMeters
            load := input.load.getD w.load
            createdAt := w.createdAt }) := by
  constructor
  · intro hnone
    have hfind : store.find? (fun x => x.id == input.id) = none := by
      rw [List.find?_eq_none]
      intro x hx
      simpa using hnone x hx
    unfold updateWorkoutInDB
    rw [hfind]
  · intro w hw
    unfold updateWorkoutInDB
    rw [hw]

/-- C10 witness: on the one-workout store `[wIntervals]`, updating id 99
fails with NotFound leaving the store unchanged, and updating id 2 succeeds
returning the retitled workout with its original `createdAt`. -/
theorem updateWorkoutInDB_witness :
    updateWorkoutInDB [wIntervals] updMissing =
      ([wIntervals], Except.error ("Workout not found for update: " ++ toString updMissing.id)) ∧
    (updateWorkoutInDB [wIntervals] updIntervals).2 =
      Except.ok
        { id := wIntervals.id
          title := updIntervals.title
          description := updIntervals.description
          date := updIntervals.date.getD wIntervals.date
          status := updIntervals.status
          exerciseType := updIntervals.exerciseType.getD wIntervals.exerciseType
          durationSec := updIntervals.durationSec.getD wIntervals.durationSec
          distanceMeters := updIntervals.distanceMeters.getD wIntervals.distanceMeters
          load := updIntervals.load.getD wIntervals.load
          createdAt := wIntervals.createdAt } :=
  ⟨(updateWorkoutInDB_notFound_or_updates [wIntervals] updMissing).1 (by decide),
   (updateWorkoutInDB_notFound_or_updates [wIntervals] updIntervals).2 wIntervals (by decide)⟩

end GoRun
